import Mathlib

/-!
Shallow embedding of the motya-config KDL parsing layer.

The embedding follows the Rust sources under `motya-config/src`:
`kdl/parser/typed_value.rs`, `kdl/parser/ctx.rs`, `kdl/parser/utils.rs`,
`kdl/listeners.rs`, `kdl/key_profile_parser.rs`, `kdl/chain_parser.rs`.
Errors are modelled as `Except String`, carrying the exact message text the
code builds (source spans are dropped: they do not affect any property below).
`usize` is modelled as the 64-bit range.  The `BlockParser` component is not
part of the sources and is modelled from its specification where needed.
-/

/-- Scalar value of one KDL entry, mirroring `kdl::KdlValue` (kind set
string / integer / float / boolean / null).  The integer payload is `i128`
in the crate, modelled as `Int`; the float payload is only ever displayed by
this layer, so it is carried as its rendered text. -/
inductive Value where
  | str (s : String)
  | int (i : Int)
  | float (txt : String)
  | bool (b : Bool)
  | null
deriving DecidableEq, Repr

/-- One entry of a node: an optional key (named vs positional) and a scalar
value, mirroring `kdl::KdlEntry`. -/
structure Entry where
  name : Option String
  value : Value
deriving DecidableEq, Repr

/-- One KDL node: a name, an ordered entry list, and an optional child block
(`none` = no block, `some []` = an empty block), mirroring `kdl::KdlNode`. -/
inductive Node where
  | mk (name : String) (entries : List Entry) (children : Option (List Node))

/-- Name of a node. -/
def Node.name : Node → String
  | .mk n _ _ => n

/-- Entry list of a node. -/
def Node.entries : Node → List Entry
  | .mk _ es _ => es

/-- Child block of a node. -/
def Node.children : Node → Option (List Node)
  | .mk _ _ cs => cs

/-- The focus of a `ParseContext` (`ctx.rs`, enum `Current`): either the
document root with its top-level node list, or one specific node.  The
document reference and source name only feed diagnostics spans and are
dropped. -/
inductive Current where
  | document (nodes : List Node)
  | node (n : Node)

/-- Rendering of a scalar for error messages, mirroring the derived `Debug`
formatting of `kdl::KdlValue` used by the `found \x7b:?\x7d` interpolations. -/
def debugRepr : Value → String
  | .str s => "String(\"" ++ s ++ "\")"
  | .int i => "Integer(" ++ toString i ++ ")"
  | .float t => "Float(" ++ t ++ ")"
  | .bool b => "Bool(" ++ toString b ++ ")"
  | .null => "Null"

/-- `TypedValue::as_str` (`typed_value.rs`): the string payload, or a type
mismatch error. -/
def as_str (v : Value) : Except String String :=
  match v with
  | .str s => .ok s
  | _ => .error ("Expected a string value, found " ++ debugRepr v)

/-- `TypedValue::as_bool` (`typed_value.rs`). -/
def as_bool (v : Value) : Except String Bool :=
  match v with
  | .bool b => .ok b
  | _ => .error ("Expected a boolean, found " ++ debugRepr v)

/-- `TypedValue::as_usize` (`typed_value.rs`): `as_integer()` then
`usize::try_from`, which succeeds exactly on `0 ≤ i < 2^64`; any other value
(wrong kind, negative, or too large) yields the same message. -/
def as_usize (v : Value) : Except String Nat :=
  match v with
  | .int i =>
      if 0 ≤ i ∧ i < 2 ^ 64 then .ok i.toNat
      else .error ("Expected a positive integer, found " ++ debugRepr v)
  | _ => .error ("Expected a positive integer, found " ++ debugRepr v)

/-- `TypedValue::as_string_lossy` (`typed_value.rs`): textual form of any
non-null scalar; fails on null. -/
def as_string_lossy (v : Value) : Except String String :=
  match v with
  | .str s => .ok s
  | .int i => .ok (toString i)
  | .float t => .ok t
  | .bool b => .ok (toString b)
  | .null => .error "Cannot parse \x27null\x27 as a string or number"

/-- Scanning a reversed character sequence up to the first (reversed)
occurrence of the `::` separator: this is the last segment that
`rsplit("::").next()` yields, reversed. -/
def revSegToSep : List Char → List Char
  | ':' :: ':' :: _ => []
  | c :: rest => c :: revSegToSep rest
  | [] => []

/-- `get_simple_type_name` (`utils.rs`): the segment of the full type path
after the last `::` (`rsplit("::").next()`; the `unwrap_or("UnknownType")`
branch is unreachable since `rsplit` always yields at least one segment). -/
def get_simple_type_name (full : String) : String :=
  ⟨(revSegToSep full.data.reverse).reverse⟩

/-- `TypedValue::parse_as::<T>` (`typed_value.rs`), parameterised by the full
type path of `T` and by the `FromStr` instance of `T` as a function
`String → Except String α` (the error payload being the rendered `T::Err`). -/
def parse_as (fullTypeName : String) (fromStr : String → Except String α)
    (v : Value) : Except String α :=
  match as_string_lossy v with
  | .error e => .error e
  | .ok raw =>
      match fromStr raw with
      | .ok a => .ok a
      | .error e =>
          .error ("Invalid " ++ get_simple_type_name fullTypeName ++ " \x27"
            ++ raw ++ "\x27. Reason: " ++ e)

/-- TLS file pair (`common_types/listeners.rs`, `TlsConfig`). -/
structure TlsConfig where
  cert_path : String
  key_path : String
deriving DecidableEq, Repr

/-- Listener kind (`common_types/listeners.rs`, `ListenerKind::Tcp`). -/
inductive ListenerKind where
  | tcp (addr : String) (tls : Option TlsConfig) (offer_h2 : Bool)
deriving DecidableEq, Repr

/-- One listener (`common_types/listeners.rs`, `ListenerConfig`). -/
structure ListenerConfig where
  source : ListenerKind
deriving DecidableEq, Repr

/-- `ListenersSection::resolve_tcp_listener` (`listeners.rs` lines 59-97):
the three-optional-field match deciding plain TCP vs TLS vs the two
mutual-exclusion errors.  The address is already rendered to text. -/
def resolve_tcp_listener (addr : String) (cert_path key_path : Option String)
    (offer_h2 : Option Bool) : Except String ListenerConfig :=
  match cert_path, key_path, offer_h2 with
  | none, none, none =>
      .ok { source := .tcp addr none false }
  | none, some _, _ =>
      .error "\x27cert-path\x27 and \x27key-path\x27 must either BOTH be present, or NEITHER should be present"
  | some _, none, _ =>
      .error "\x27cert-path\x27 and \x27key-path\x27 must either BOTH be present, or NEITHER should be present"
  | none, none, some _ =>
      .error "\x27offer-h2\x27 requires TLS, specify \x27cert-path\x27 and \x27key-path\x27"
  | some cpath, some kpath, h2 =>
      .ok { source := .tcp addr (some { cert_path := cpath, key_path := kpath })
              (h2.getD true) }

/-- One insertion into the modelled `HashMap<&str, &str>`: replacing semantics
(`HashMap::insert` overwrites an existing binding for the same key).  The map
is carried as an association list whose observable interface is
`List.lookup`; Rust iteration order is unspecified and never relied on. -/
def hmInsert (m : List (String × String)) (k v : String) :
    List (String × String) :=
  (k, v) :: m.eraseP (fun p => p.1 == k)

/-- The `filter_map` closure of `ParseContext::args_map` (`ctx.rs` lines
179-183): an entry contributes a key/value pair exactly when it is named and
its scalar value is a string. -/
def entryKV (e : Entry) : Option (String × String) :=
  match e.name, e.value with
  | some k, .str v => some (k, v)
  | _, _ => none

/-- The `filter_map` + `collect::<HashMap<_, _>>` of `ParseContext::args_map`
(`ctx.rs` lines 177-184): keep only entries that are named and whose scalar
value is a string, inserting in source order (so a duplicate key keeps the
last occurrence, as `HashMap` insertion does). -/
def argsMapEntries (es : List Entry) : List (String × String) :=
  (es.filterMap entryKV).foldl (fun m p => hmInsert m p.1 p.2) []

/-- A slice range as used with `args_map` (`ctx.rs`, trait `SliceRange`):
`start..`, `..`, `..end` or `start..end`, with Rust `slice.get` semantics
(`none` when out of bounds). -/
inductive SliceRange where
  | rFrom (s : Nat)
  | rFull
  | rTo (e : Nat)
  | rRange (s e : Nat)

/-- Rust `slice.get(range)` for the four supported range shapes. -/
def SliceRange.slice : SliceRange → List α → Option (List α)
  | .rFrom s, l => if s ≤ l.length then some (l.drop s) else none
  | .rFull, l => some l
  | .rTo e, l => if e ≤ l.length then some (l.take e) else none
  | .rRange s e, l =>
      if s ≤ e ∧ e ≤ l.length then some ((l.drop s).take (e - s)) else none

/-- `ParseContext::args` (`ctx.rs`): the raw entry list; a structural error on
a document-root focus. -/
def ctxArgs (c : Current) : Except String (List Entry) :=
  match c with
  | .document _ => .error "Expected node, but current is a document"
  | .node n => .ok n.entries

/-- `ParseContext::args_map` (`ctx.rs` lines 168-185): slice the entry list by
the range, then collect named string-valued entries into a map. -/
def args_map (c : Current) (r : SliceRange) :
    Except String (List (String × String)) :=
  match ctxArgs c with
  | .error e => .error e
  | .ok args =>
      match r.slice args with
      | none => .error "Range out of bounds"
      | some sliced => .ok (argsMapEntries sliced)

/-- `HashMapValidationExt::ensure_only_keys` (`ctx.rs` lines 280-303): fail on
the first key outside the allow-list (iteration order of the Rust `HashMap` is
unspecified; which offending key is cited is not relied on). -/
def ensure_only_keys (m : List (String × String)) (allowed : List String) :
    Except String (List (String × String)) :=
  match (m.map Prod.fst).find? (fun k => !(allowed.contains k)) with
  | some badKey =>
      .error ("Unknown configuration key: \x27" ++ badKey ++ "\x27")
  | none => .ok m

/-- `ParseContext::args_map_with_only_keys` (`ctx.rs` lines 151-165). -/
def args_map_with_only_keys (c : Current) (r : SliceRange)
    (allowed : List String) : Except String (List (String × String)) :=
  match args_map c r with
  | .error e => .error e
  | .ok m => ensure_only_keys m allowed

/-- `ParseContext::enter_block` (`ctx.rs` lines 39-56): from a node focus with
a child block to a document focus over that block; structural errors
otherwise. -/
def enter_block (c : Current) : Except String Current :=
  match c with
  | .node n =>
      match n.children with
      | some cs => .ok (.document cs)
      | none => .error "Expected a children block \x7b ... \x7d, but none found"
  | .document _ =>
      .error "Cannot enter block: current context is already a document root"

/-- `ParseContext::nodes` (`ctx.rs` lines 99-121): the immediate children as
node-focused contexts; on a node focus this requires a child block. -/
def ctxNodes (c : Current) : Except String (List Current) :=
  match c with
  | .document d => .ok (d.map .node)
  | .node n =>
      match n.children with
      | some cs => .ok (cs.map .node)
      | none => .error "Expected children block"

/-- `ParseContext::name` (`ctx.rs` lines 85-90). -/
def ctxName (c : Current) : Except String String :=
  match c with
  | .document _ => .error "Expected node, but current is a document"
  | .node n => .ok n.name

/-- `ParseContext::first` (`typed_value.rs` lines 88-98): the first entry of
any kind, required. -/
def ctxFirst (c : Current) : Except String Value :=
  match ctxArgs c with
  | .error e => .error e
  | .ok args =>
      match args.head? with
      | some e => .ok e.value
      | none => .error "Missing required first argument"

/-- `ParseContext::prop` (`typed_value.rs` lines 119-130): the first entry
named by the key, required. -/
def ctxProp (c : Current) (key : String) : Except String Value :=
  match ctxArgs c with
  | .error e => .error e
  | .ok args =>
      match args.find? (fun e => e.name == some key) with
      | some e => .ok e.value
      | none => .error ("Missing required property \x27" ++ key ++ "\x27")

/-- `ParseContext::opt_prop` (`typed_value.rs` lines 132-142): the first entry
named by the key, optional. -/
def ctxOptProp (c : Current) (key : String) :
    Except String (Option Value) :=
  match ctxArgs c with
  | .error e => .error e
  | .ok args => .ok ((args.find? (fun e => e.name == some key)).map Entry.value)

/-- Modelled from the spec: the `BlockParser` component (`kdl/parser/block.rs`
is not among the sources; only its callers and tests are).  Its state is the
list of still-unconsumed child nodes, in source order; construction wraps the
child list of the context (the top-level node list for a document focus, the
child block for a node focus, failing when a node has no block). -/
def blockNew (c : Current) : Except String (List Node) :=
  match c with
  | .document d => .ok d
  | .node n =>
      match n.children with
      | some cs => .ok cs
      | none => .error "Expected a children block \x7b ... \x7d, but none found"

/-- Modelled from the spec: `BlockParser::required(name, extract_fn)` locates
the first unconsumed child of that name, removes it from the pending set and
runs the extractor on it; absence is a MissingRequiredError (message text from
`test_missing_key_error`). -/
def requiredOp (name : String) (f : Node → Except String α)
    (st : List Node) : Except String (α × List Node) :=
  match st.find? (fun n => n.name == name) with
  | none => .error ("Missing required directive \x27" ++ name ++ "\x27")
  | some n =>
      match f n with
      | .error e => .error e
      | .ok a => .ok (a, st.eraseP (fun m => m.name == name))

/-- Modelled from the spec: `BlockParser::optional(name, extract_fn)` — same
lookup as `required` but yields `none` instead of failing when absent. -/
def optionalOp (name : String) (f : Node → Except String α)
    (st : List Node) : Except String (Option α × List Node) :=
  match st.find? (fun n => n.name == name) with
  | none => .ok (none, st)
  | some n =>
      match f n with
      | .error e => .error e
      | .ok a => .ok (some a, st.eraseP (fun m => m.name == name))

/-- Modelled from the spec: `BlockParser::repeated(name, extract_fn)` removes
all matching children in source order, applying the extractor to each, and
returns the ordered result list (possibly empty). -/
def repeatedOp (name : String) (f : Node → Except String α)
    (st : List Node) : Except String (List α × List Node) :=
  match (st.filter (fun n => n.name == name)).mapM f with
  | .error e => .error e
  | .ok rs => .ok (rs, st.filter (fun n => n.name != name))

/-- Modelled from the spec: `BlockParser::exhaust()` succeeds on an empty
pending set and otherwise fails naming the first still-pending child (message
text from `test_chain_parser_invalid_directive_name`). -/
def exhaustOp (st : List Node) : Except String Unit :=
  match st with
  | [] => .ok ()
  | n :: _ => .error ("Unknown directive: \x27" ++ n.name ++ "\x27")

/-- Hash algorithm selection (`common_types/definitions.rs`,
`HashAlgorithm`). -/
structure HashAlgorithm where
  name : String
  seed : Option String
deriving DecidableEq, Repr

/-- One key transform step (`common_types/definitions.rs`, `Transform`); the
string-keyed params map is carried as its association list. -/
structure Transform where
  name : String
  params : List (String × String)
deriving DecidableEq, Repr

/-- Cache-key template configuration (`common_types/definitions.rs`,
`KeyTemplateConfig`). -/
structure KeyTemplateConfig where
  source : String
  fallback : Option String
  algorithm : HashAlgorithm
  transforms : List Transform
deriving DecidableEq, Repr

/-- `KeyProfileParser::parse` (`key_profile_parser.rs` lines 9-62), over the
modelled `BlockParser`: a required `key` directive (first argument plus an
optional `fallback` property), an optional `algorithm` directive with
defaults, an optional `transforms-order` block, then `exhaust`. -/
def keyProfileParse (c : Current) : Except String KeyTemplateConfig := do
  let st0 ← blockNew c
  let (sourceFallback, st1) ← requiredOp "key"
    (fun n => do
      let firstVal ← ctxFirst (.node n)
      let source ← as_str firstVal
      let m ← args_map_with_only_keys (.node n) (.rFrom 1) ["fallback"]
      pure (source, m.lookup "fallback"))
    st0
  let (algOpt, st2) ← optionalOp "algorithm"
    (fun n => do
      let opts ← args_map_with_only_keys (.node n) .rFull ["name", "seed"]
      pure { name := (opts.lookup "name").getD "xxhash64",
             seed := opts.lookup "seed" : HashAlgorithm })
    st1
  let algorithm := algOpt.getD { name := "xxhash64", seed := none }
  let (transOpt, st3) ← optionalOp "transforms-order"
    (fun n => do
      let cs ← ctxNodes (.node n)
      cs.mapM (fun sc => do
        let name := match ctxName sc with
                    | .ok s => s
                    | .error _ => ""
        let params ← args_map sc .rFull
        pure { name := name, params := params : Transform }))
    st2
  let transforms := transOpt.getD []
  let _ ← exhaustOp st3
  pure { source := sourceFallback.1, fallback := sourceFallback.2,
         algorithm := algorithm, transforms := transforms }

/-- Modelled from the spec: the external `fqdn::FQDN` string parser (the
`fqdn` crate is a collaborator, not part of the sources).  Only what the spec
states is modelled: a string with a character invalid in a domain name, such
as a space, is rejected with the reason text seen in
`test_chain_parser_invalid_fqdn`. -/
def fqdnFromStr (s : String) : Except String String :=
  if s.toList.all (fun ch => ch.isAlphanum || ch = '.' || ch = '-')
  then .ok s
  else .error "invalid char found in FQDN"

/-- Modelled from the spec: the cumulative pending-set effect of processing a
block schema, running `repeated` once per schema name (each such call removes
every matching child from the pending set, as `repeatedOp` does on
success). -/
def runRepeatedAll (names : List String) (st : List Node) : List Node :=
  names.foldl (fun s nm => s.filter (fun n => n.name != nm)) st

/-- Substring containment at the character level, used to state what an error
message carries. -/
def strContainsP (s sub : String) : Prop :=
  ∃ l r, s.data = l ++ sub.data ++ r

/-- C1: listener extraction over the three optional fields follows the exact
case analysis: all three absent gives a plain TCP listener (no TLS, h2
false); both paths present gives a TLS listener whose offer-h2 flag is the
explicitly set value, defaulting to true when unset; exactly one of
cert-path/key-path present (regardless of offer-h2) is the mutual-exclusion
error; offer-h2 present with neither path present is the mutual-exclusion
error for h2-without-TLS. -/
theorem resolve_tcp_listener_cases (addr : String) :
    (resolve_tcp_listener addr none none none
      = .ok { source := .tcp addr none false })
  ∧ (∀ c k h2, resolve_tcp_listener addr (some c) (some k) h2
      = .ok { source := .tcp addr (some { cert_path := c, key_path := k })
                (h2.getD true) })
  ∧ (∀ c h2, resolve_tcp_listener addr (some c) none h2
      = .error "\x27cert-path\x27 and \x27key-path\x27 must either BOTH be present, or NEITHER should be present")
  ∧ (∀ k h2, resolve_tcp_listener addr none (some k) h2
      = .error "\x27cert-path\x27 and \x27key-path\x27 must either BOTH be present, or NEITHER should be present")
  ∧ (∀ h2, resolve_tcp_listener addr none none (some h2)
      = .error "\x27offer-h2\x27 requires TLS, specify \x27cert-path\x27 and \x27key-path\x27") := by
  refine ⟨rfl, ?_, ?_, ?_, ?_⟩ <;> intros <;> rfl

/-- C5: `as_string_lossy` succeeds with the textual representation on every
string, integer, float and boolean scalar, and fails exactly on null. -/
theorem as_string_lossy_spec (v : Value) :
    (∀ s, v = .str s → as_string_lossy v = .ok s)
  ∧ (∀ i, v = .int i → as_string_lossy v = .ok (toString i))
  ∧ (∀ t, v = .float t → as_string_lossy v = .ok t)
  ∧ (∀ b, v = .bool b → as_string_lossy v = .ok (toString b))
  ∧ (v = .null →
      as_string_lossy v = .error "Cannot parse \x27null\x27 as a string or number")
  ∧ ((∃ s, as_string_lossy v = .ok s) ↔ v ≠ .null) := by
  refine ⟨?_, ?_, ?_, ?_, ?_, ?_⟩
  · rintro s rfl; rfl
  · rintro i rfl; rfl
  · rintro t rfl; rfl
  · rintro b rfl; rfl
  · rintro rfl; rfl
  · constructor
    · rintro ⟨s, hs⟩ rfl; simp [as_string_lossy] at hs
    · intro hv; cases v with
      | str s => exact ⟨s, rfl⟩
      | int i => exact ⟨toString i, rfl⟩
      | float t => exact ⟨t, rfl⟩
      | bool b => exact ⟨toString b, rfl⟩
      | null => exact absurd rfl hv

/-- Witness for C5 at a concrete integer scalar. -/
theorem as_string_lossy_spec_witness :
    as_string_lossy (Value.int 42) = .ok "42" :=
  (as_string_lossy_spec (Value.int 42)).2.1 42 rfl

/-- C7: `enter_block` yields a document-focused context over the child block
exactly when the focus is a node that has one; a node without a child block
and a document-root focus are the two structural errors. -/
theorem enter_block_spec (c : Current) :
    (∀ n cs, c = .node n → n.children = some cs →
        enter_block c = .ok (.document cs))
  ∧ (∀ n, c = .node n → n.children = none →
        enter_block c
          = .error "Expected a children block \x7b ... \x7d, but none found")
  ∧ (∀ ds, c = .document ds →
        enter_block c
          = .error "Cannot enter block: current context is already a document root") := by
  refine ⟨?_, ?_, ?_⟩
  · rintro n cs rfl h; simp [enter_block, h]
  · rintro n rfl h; simp [enter_block, h]
  · rintro ds rfl; rfl

/-- Witness for C7 at a node with an empty child block. -/
theorem enter_block_spec_witness :
    enter_block (.node (.mk "svc" [] (some []))) = .ok (.document []) :=
  (enter_block_spec (.node (.mk "svc" [] (some [])))).1 _ [] rfl rfl

/-- C10: `as_usize` on an integer scalar that is negative or beyond the usize
range fails with the same "Expected a positive integer" message used for
non-integer kinds, and on an in-range integer returns it unchanged (no
wrapping or truncation). -/
theorem as_usize_spec (v : Value) :
    (∀ i, v = .int i → i < 0 ∨ 2 ^ 64 ≤ i →
        as_usize v = .error ("Expected a positive integer, found " ++ debugRepr v))
  ∧ (∀ i, v = .int i → 0 ≤ i → i < 2 ^ 64 →
        as_usize v = .ok i.toNat ∧ (i.toNat : Int) = i)
  ∧ ((∀ i, v ≠ .int i) →
        as_usize v = .error ("Expected a positive integer, found " ++ debugRepr v)) := by
  refine ⟨?_, ?_, ?_⟩
  · rintro i rfl h
    have : ¬(0 ≤ i ∧ i < 2 ^ 64) := by
      rcases h with h | h
      · exact fun hc => absurd hc.1 (not_le.mpr h)
      · exact fun hc => absurd hc.2 (not_lt.mpr h)
    simp only [as_usize]
    rw [if_neg this]
  · rintro i rfl h0 h1
    refine ⟨?_, Int.toNat_of_nonneg h0⟩
    simp only [as_usize]
    rw [if_pos ⟨h0, h1⟩]
  · intro h
    cases v with
    | int i => exact absurd rfl (h i)
    | str s => rfl
    | float t => rfl
    | bool b => rfl
    | null => rfl

/-- Witness for C10 at the negative integer -1. -/
theorem as_usize_spec_witness :
    as_usize (Value.int (-1))
      = .error ("Expected a positive integer, found " ++ debugRepr (Value.int (-1))) :=
  (as_usize_spec (Value.int (-1))).1 (-1) rfl (Or.inl (by decide))

/-- C8: the single directive `key "$\x7buri_path\x7d"` under the key-profile
schema yields the minimal configuration: that source, no fallback, default
hash algorithm xxhash64 with no seed, and no transforms. -/
theorem key_profile_minimal :
    keyProfileParse
        (.document [.mk "key" [{ name := none, value := .str "${uri_path}" }] none])
      = .ok { source := "${uri_path}", fallback := none,
              algorithm := { name := "xxhash64", seed := none },
              transforms := [] } := rfl

/-- Looking up a key is unchanged by erasing the first binding of a different
key. -/
theorem lookup_eraseP_ne (m : List (String × String)) (k k2 : String)
    (h : (k2 == k) = false) :
    (m.eraseP (fun p => p.1 == k)).lookup k2 = m.lookup k2 := by
  induction m with
  | nil => rfl
  | cons p t ih =>
      by_cases hp : p.1 == k
      · have hpk : p.1 = k := by simpa using hp
        have hk2 : (k2 == p.1) = false := by rw [hpk]; exact h
        simp [List.eraseP_cons, hp, List.lookup, hk2]
      · have hp2 : (p.1 == k) = false := by simpa using hp
        by_cases hq : k2 == p.1
        · simp [List.eraseP_cons, hp2, List.lookup, hq]
        · have hq2 : (k2 == p.1) = false := by simpa using hq
          simp [List.eraseP_cons, hp2, List.lookup, hq2, ih]

/-- Lookup after one replacing insertion. -/
theorem lookup_hmInsert (m : List (String × String)) (k v k2 : String) :
    (hmInsert m k v).lookup k2 = if k2 == k then some v else m.lookup k2 := by
  by_cases h : k2 == k
  · simp [hmInsert, List.lookup, h]
  · have h2 : (k2 == k) = false := by simpa using h
    simp [hmInsert, List.lookup, h2, lookup_eraseP_ne m k k2 h2]

/-- A fold of replacing insertions resolves every key to the last occurrence
of that key in the inserted sequence. -/
theorem lookup_foldl_hmInsert (kvs : List (String × String)) (k : String) :
    (kvs.foldl (fun m p => hmInsert m p.1 p.2) []).lookup k
      = ((kvs.filter (fun p => p.1 == k)).getLast?).map Prod.snd := by
  induction kvs using List.reverseRecOn with
  | nil => rfl
  | append_singleton xs x ih =>
      rw [List.foldl_append, List.foldl_cons, List.foldl_nil, lookup_hmInsert,
        List.filter_append]
      by_cases h : k == x.1
      · have hx : (x.1 == k) = true := by
          have : k = x.1 := by simpa using h
          simp [this]
        simp [h, hx, List.getLast?_concat]
      · have h2 : (k == x.1) = false := by simpa using h
        have hx : (x.1 == k) = false := by
          have : ¬(k = x.1) := by simpa using h
          simpa using fun e => this e.symm
        simp [h2, hx, ih]

/-- C4 counterexample: on a node whose entry list binds the key k twice
(first to "a", then to "b"), `opt_prop` resolves to the first entry, but the
`args_map` mapping yields the LAST matching value "b", not the first — so the
claim that the key-to-value mapping produced by `args_map` resolves a
duplicate key to the first matching entry is false. -/
theorem args_map_duplicate_key_cex :
    ctxOptProp
        (.node (.mk "f"
          [{ name := some "k", value := .str "a" },
           { name := some "k", value := .str "b" }] none)) "k"
      = .ok (some (.str "a"))
  ∧ args_map
        (.node (.mk "f"
          [{ name := some "k", value := .str "a" },
           { name := some "k", value := .str "b" }] none)) .rFull
      = .ok [("k", "b")]
  ∧ ("b" : String) ≠ "a" := by
  refine ⟨rfl, rfl, by decide⟩

/-- C4 amended: `prop` and `opt_prop` resolve a duplicated key to the first
matching entry, while the mapping produced by `args_map` resolves each key to
the LAST matching named string-valued entry (HashMap insertion overwrites). -/
theorem dup_key_resolution (nm : String) (es : List Entry)
    (ch : Option (List Node)) (k : String) :
    ctxOptProp (.node (.mk nm es ch)) k
      = .ok ((es.find? (fun e => e.name == some k)).map Entry.value)
  ∧ (∀ e, es.find? (fun e2 => e2.name == some k) = some e →
        ctxProp (.node (.mk nm es ch)) k = .ok e.value)
  ∧ (argsMapEntries es).lookup k
      = ((es.filterMap entryKV).filter (fun p => p.1 == k)).getLast?.map
          Prod.snd := by
  refine ⟨rfl, ?_, ?_⟩
  · intro e he
    simp [ctxProp, ctxArgs, Node.entries, he]
  · exact lookup_foldl_hmInsert (es.filterMap entryKV) k

/-- Witness for C4 amended, on the duplicate-key entry list of the
counterexample. -/
theorem dup_key_resolution_witness :
    ctxProp
        (.node (.mk "f"
          [{ name := some "k", value := .str "a" },
           { name := some "k", value := .str "b" }] none)) "k"
      = .ok (Value.str "a") :=
  (dup_key_resolution "f"
      [{ name := some "k", value := .str "a" },
       { name := some "k", value := .str "b" }] none "k").2.1
    { name := some "k", value := .str "a" } rfl

/-- C9: with a node focus and an in-bounds range, `args_map` does not fail,
and it silently omits positional entries and named entries whose scalar value
is not a string: such an entry contributes nothing to the map, and every key
of the result originates in a named string-valued entry of the sliced
range. -/
theorem args_map_skips (n : Node) (r : SliceRange) (sub : List Entry)
    (h : r.slice n.entries = some sub) :
    args_map (.node n) r = .ok (argsMapEntries sub)
  ∧ (∀ e : Entry, e.name = none ∨ (∀ v, e.value ≠ .str v) → entryKV e = none)
  ∧ (∀ l1 l2 e, entryKV e = none →
        argsMapEntries (l1 ++ e :: l2) = argsMapEntries (l1 ++ l2))
  ∧ (∀ k, ((argsMapEntries sub).lookup k).isSome →
        ∃ e ∈ sub, ∃ v, e.name = some k ∧ e.value = .str v) := by
  refine ⟨?_, ?_, ?_, ?_⟩
  · simp [args_map, ctxArgs, h]
  · rintro ⟨en, ev⟩ he
    rcases he with he | he
    · cases en with
      | none => cases ev <;> rfl
      | some k2 => exact Option.noConfusion he
    · cases en with
      | none => cases ev <;> rfl
      | some k2 =>
          cases ev with
          | str s => exact absurd rfl (he s)
          | int i => rfl
          | float t => rfl
          | bool b => rfl
          | null => rfl
  · intro l1 l2 e he
    simp [argsMapEntries, List.filterMap_append, List.filterMap_cons, he]
  · intro k hk
    rw [show argsMapEntries sub
          = (sub.filterMap entryKV).foldl (fun m p => hmInsert m p.1 p.2) []
        from rfl, lookup_foldl_hmInsert] at hk
    rcases Option.isSome_iff_exists.mp hk with ⟨v, hv⟩
    rcases Option.map_eq_some'.mp hv with ⟨p, hp, hpv⟩
    have hpmem : p ∈ ((sub.filterMap entryKV).filter
        (fun q => q.1 == k)).getLast? := hp
    rcases List.mem_getLast?_eq_getLast hpmem with ⟨hne, hpe⟩
    have hmemf : p ∈ (sub.filterMap entryKV).filter (fun q => q.1 == k) :=
      hpe ▸ List.getLast_mem hne
    have hmem := (List.mem_filter.mp hmemf).1
    have hkeq : p.1 = k := by
      have := (List.mem_filter.mp hmemf).2
      simpa using this
    rcases List.mem_filterMap.mp hmem with ⟨e, he, hkv⟩
    rcases e with ⟨en, ev⟩
    cases en with
    | none => simp [entryKV] at hkv
    | some k2 =>
        cases ev with
        | str s =>
            have hpk : p = (k2, s) := by simpa [entryKV] using hkv.symm
            subst hpk
            exact ⟨⟨some k2, .str s⟩, he, s, by simpa using hkeq, rfl⟩
        | int i => simp [entryKV] at hkv
        | float t => simp [entryKV] at hkv
        | bool b => simp [entryKV] at hkv
        | null => simp [entryKV] at hkv

/-- C2: after the preceding calls have consumed children by name (modelled by
the pending-set effect of one `repeated` per schema name, which the second
conjunct ties to `repeatedOp`), the pending set holds exactly the children
whose name no call consumed; `exhaust` succeeds when every child carries a
consumed name, and with one unrecognized sibling present it fails naming that
first still-pending child. -/
theorem exhaust_spec (names : List String) (cs : List Node) :
    runRepeatedAll names cs = cs.filter (fun n => !(names.contains n.name))
  ∧ (∀ nm (f : Node → Except String Unit) (st : List Node) rs st2,
        repeatedOp nm f st = .ok (rs, st2) →
          st2 = st.filter (fun n => n.name != nm))
  ∧ ((∀ n ∈ cs, n.name ∈ names) →
        exhaustOp (runRepeatedAll names cs) = .ok ())
  ∧ (∀ l r d, (∀ n ∈ l, n.name ∈ names) → (∀ n ∈ r, n.name ∈ names) →
        d.name ∉ names →
        exhaustOp (runRepeatedAll names (l ++ d :: r))
          = .error ("Unknown directive: \x27" ++ d.name ++ "\x27")) := by
  have h1 : ∀ cs2 : List Node,
      runRepeatedAll names cs2
        = cs2.filter (fun n => !(names.contains n.name)) := by
    induction names with
    | nil => intro cs2; simp [runRepeatedAll]
    | cons nm rest ih =>
        intro cs2
        show runRepeatedAll rest (cs2.filter (fun n => n.name != nm)) = _
        rw [ih, List.filter_filter]
        apply List.filter_congr
        intro n _
        rw [List.contains_cons]
        cases hn : n.name == nm <;> cases hr : rest.contains n.name <;>
          simp [hn, hr, bne]
  refine ⟨h1 cs, ?_, ?_, ?_⟩
  · intro nm f st rs st2 h
    cases hm : (st.filter (fun n => n.name == nm)).mapM f with
    | error e => rw [repeatedOp, hm] at h; cases h
    | ok rs2 => rw [repeatedOp, hm] at h; cases h; rfl
  · intro hall
    rw [h1 cs]
    have : cs.filter (fun n => !(names.contains n.name)) = [] := by
      rw [List.filter_eq_nil_iff]
      intro n hn
      simpa using hall n hn
    rw [this]
    rfl
  · intro l r d hl hr hd
    rw [h1 (l ++ d :: r)]
    have hfl : l.filter (fun n => !(names.contains n.name)) = [] := by
      rw [List.filter_eq_nil_iff]
      intro n hn
      simpa using hl n hn
    have hfr : r.filter (fun n => !(names.contains n.name)) = [] := by
      rw [List.filter_eq_nil_iff]
      intro n hn
      simpa using hr n hn
    have hfd : (!(names.contains d.name)) = true := by
      simpa using hd
    rw [List.filter_append, List.filter_cons, hfd, hfl, hfr]
    rfl

/-- Witness for C2, mirroring `test_chain_parser_invalid_directive_name`: a
recognized `filter` child plus one unrecognized `not-filter` child. -/
theorem exhaust_spec_witness :
    exhaustOp (runRepeatedAll ["filter"]
        [Node.mk "filter" [] none, Node.mk "not-filter" [] none])
      = .error "Unknown directive: \x27not-filter\x27" :=
  (exhaust_spec ["filter"]
      [Node.mk "filter" [] none, Node.mk "not-filter" [] none]).2.2.2
    [Node.mk "filter" [] none] [] (Node.mk "not-filter" [] none)
    (by decide) (by decide) (by decide)

/-- A successful `mapM` over `Except` relates inputs and outputs pointwise,
in order. -/
theorem mapM_ok_forall2 (f : Node → Except String α) :
    ∀ (l : List Node) (rs : List α), l.mapM f = .ok rs →
      List.Forall₂ (fun n a => f n = .ok a) l rs := by
  intro l
  induction l with
  | nil =>
      intro rs h
      rw [List.mapM_nil] at h
      cases h
      exact .nil
  | cons x xs ih =>
      intro rs h
      rw [List.mapM_cons] at h
      cases hx : f x with
      | error e => rw [hx] at h; cases h
      | ok a =>
          rw [hx] at h
          cases hxs : xs.mapM f with
          | error e => rw [hxs] at h; cases h
          | ok as =>
              rw [hxs] at h
              cases h
              exact .cons hx (ih as hxs)

/-- C3: a successful `repeated(name, f)` leaves exactly the non-matching
children pending, and returns one result per matching child, in source order,
each produced by `f` on that child; with zero matching children it succeeds
with the empty result and an untouched pending set. -/
theorem repeated_spec (nm : String) (f : Node → Except String α)
    (st : List Node) :
    (∀ rs st2, repeatedOp nm f st = .ok (rs, st2) →
        st2 = st.filter (fun n => n.name != nm)
      ∧ List.Forall₂ (fun n a => f n = .ok a)
          (st.filter (fun n => n.name == nm)) rs
      ∧ rs.length = (st.filter (fun n => n.name == nm)).length)
  ∧ (st.filter (fun n => n.name == nm) = [] →
        repeatedOp nm f st = .ok ([], st)) := by
  constructor
  · intro rs st2 h
    cases hm : (st.filter (fun n => n.name == nm)).mapM f with
    | error e => rw [repeatedOp, hm] at h; cases h
    | ok rs2 =>
        rw [repeatedOp, hm] at h
        cases h
        have hf := mapM_ok_forall2 f _ _ hm
        exact ⟨rfl, hf, hf.length_eq.symm⟩
  · intro hnil
    have hself : st.filter (fun n => n.name != nm) = st := by
      rw [List.filter_eq_self]
      intro n hn
      have : ¬((fun n => n.name == nm) n = true) :=
        List.filter_eq_nil_iff.mp hnil n hn
      simpa [bne] using this
    rw [repeatedOp, hnil, List.mapM_nil, hself]
    rfl

/-- Witness for C3 on a pending set with no matching child. -/
theorem repeated_spec_witness :
    repeatedOp "filter" (fun n => Except.ok n.name) [Node.mk "x" [] none]
      = .ok ([], [Node.mk "x" [] none]) :=
  (repeated_spec "filter" (fun n => Except.ok n.name)
      [Node.mk "x" [] none]).2 rfl

/-- A string always contains its middle append component. -/
theorem strContainsP_middle (a b c : String) : strContainsP (a ++ b ++ c) b :=
  ⟨a.data, c.data, rfl⟩

/-- C6: when the lossy string form of a non-null entry fails the target-type
parse, `parse_as` reports a FormatError message built from the target type
simple name, the offending raw text, and the underlying reason — and the
message contains each of the three. -/
theorem parse_as_error_format (fullTypeName : String)
    (fromStr : String → Except String α) (v : Value) (raw e : String)
    (h1 : as_string_lossy v = .ok raw) (h2 : fromStr raw = .error e) :
    parse_as fullTypeName fromStr v
      = .error ("Invalid " ++ get_simple_type_name fullTypeName ++ " \x27"
          ++ raw ++ "\x27. Reason: " ++ e)
  ∧ strContainsP ("Invalid " ++ get_simple_type_name fullTypeName ++ " \x27"
      ++ raw ++ "\x27. Reason: " ++ e) (get_simple_type_name fullTypeName)
  ∧ strContainsP ("Invalid " ++ get_simple_type_name fullTypeName ++ " \x27"
      ++ raw ++ "\x27. Reason: " ++ e) raw
  ∧ strContainsP ("Invalid " ++ get_simple_type_name fullTypeName ++ " \x27"
      ++ raw ++ "\x27. Reason: " ++ e) e := by
  refine ⟨?_, ?_, ?_, ?_⟩
  · simp [parse_as, h1, h2]
  · have heq :
        "Invalid " ++ get_simple_type_name fullTypeName ++ " \x27"
            ++ raw ++ "\x27. Reason: " ++ e
          = "Invalid " ++ get_simple_type_name fullTypeName
            ++ (" \x27" ++ raw ++ "\x27. Reason: " ++ e) := by
      simp [String.append_assoc]
    rw [heq]
    exact strContainsP_middle "Invalid " (get_simple_type_name fullTypeName)
      (" \x27" ++ raw ++ "\x27. Reason: " ++ e)
  · have heq :
        "Invalid " ++ get_simple_type_name fullTypeName ++ " \x27"
            ++ raw ++ "\x27. Reason: " ++ e
          = ("Invalid " ++ get_simple_type_name fullTypeName ++ " \x27")
            ++ raw ++ ("\x27. Reason: " ++ e) := by
      simp [String.append_assoc]
    rw [heq]
    exact strContainsP_middle _ raw _
  · have heq :
        "Invalid " ++ get_simple_type_name fullTypeName ++ " \x27"
            ++ raw ++ "\x27. Reason: " ++ e
          = ("Invalid " ++ get_simple_type_name fullTypeName ++ " \x27"
            ++ raw ++ "\x27. Reason: ") ++ e ++ "" := by
      simp [String.append_assoc, String.append_empty]
    rw [heq]
    exact strContainsP_middle _ e ""

/-- Witness for C6, mirroring `test_chain_parser_invalid_fqdn`: parsing the
string "invalid name with spaces" as `fqdn::FQDN` yields a message that
contains "Invalid FQDN \x27invalid name with spaces\x27". -/
theorem parse_as_error_format_witness :
    (parse_as "fqdn::FQDN" fqdnFromStr (.str "invalid name with spaces")
        = .error "Invalid FQDN \x27invalid name with spaces\x27. Reason: invalid char found in FQDN")
  ∧ strContainsP
      "Invalid FQDN \x27invalid name with spaces\x27. Reason: invalid char found in FQDN"
      "Invalid FQDN \x27invalid name with spaces\x27" :=
  ⟨(parse_as_error_format "fqdn::FQDN" fqdnFromStr
      (.str "invalid name with spaces") "invalid name with spaces"
      "invalid char found in FQDN" rfl rfl).1,
   ⟨[], (". Reason: invalid char found in FQDN").data, rfl⟩⟩

/-- Witness for C9: a filter-style node whose second entry is a named integer
entry; the map over the `1..` range is empty and no error is raised. -/
theorem args_map_skips_witness :
    args_map
        (.node (.mk "filter"
          [{ name := some "name", value := .str "x" },
           { name := some "level", value := .int 5 }] none)) (.rFrom 1)
      = .ok [] :=
  (args_map_skips
      (.mk "filter"
        [{ name := some "name", value := .str "x" },
         { name := some "level", value := .int 5 }] none)
      (.rFrom 1) [{ name := some "level", value := .int 5 }] rfl).1
